import Mathlib

/-!
Verification of the scheduled-publication core of `mcp-linkedin`.

The development shallowly embeds the live core of the repository:

* `src/src/database.js` — the SQLite-backed store of scheduled posts
  (class `ScheduledPostsDB`): each method is translated to a Lean function
  over a list of rows, with the SQL `UPDATE ... WHERE` semantics made
  explicit (`sqlUpdate` applies the assignment to every row satisfying the
  `WHERE` condition and reports the number of matched rows, which is what
  `better-sqlite3` returns as `result.changes`).
* the scheduler daemon (`publishPost`, `processDuePosts`, `startScheduler`)
  — the per-tick state transformation is embedded both as a pure function
  over the store state and, for the error-propagation analysis, as an
  `Except`-valued computation over an abstract fallible store, mirroring
  the fact that the JavaScript code wraps the LinkedIn API call in
  `try/catch` but performs every database call outside of any handler.
* the Zod input schemas (`SchedulePostInputSchema`,
  `ListScheduledPostsInputSchema`) and the tool-facing operations of
  `src/src/tools.js` (`linkedin_schedule_post`,
  `linkedin_list_scheduled_posts`, `linkedin_cancel_scheduled_post`).

Modelling conventions: ISO-8601 timestamp strings are totally ordered by
lexicographic comparison, which agrees with chronological order, so times
are embedded as `Nat`; UUIDs are embedded as `Nat` and the values produced
by `uuidv4()` / `new Date()` are passed to the embedded functions as
explicit arguments.  The SQL `PRIMARY KEY` constraint on `id` is expressed
by the predicate `UniqueIds` and taken as a hypothesis where a proof needs
it.  Raw JSON numbers arriving at the Zod boundary are embedded as `ℚ` so
that the `.int()` check is meaningful.  Console logging, date formatting
and the cron wiring are glue with no effect on the store state and are not
modelled.
-/

namespace McpLinkedin

/-- Status enum of a scheduled post; column `status` of table
`scheduled_posts` (values written by the code: `pending`, `published`,
`failed`, `cancelled`). -/
inductive Status where
  | pending
  | published
  | failed
  | cancelled
deriving DecidableEq, Repr

/-- One row of the `scheduled_posts` table, in the camelCase shape produced
by `_rowToPost` in `src/src/database.js`. -/
structure ScheduledPost where
  id : Nat
  commentary : String
  url : Option String
  visibility : String
  scheduledTime : Nat
  status : Status
  createdAt : Nat
  publishedAt : Option Nat
  postUrn : Option String
  errorMessage : Option String
  retryCount : Nat
deriving DecidableEq, Repr

/-- The persistent state of the store: the rows of `scheduled_posts`. -/
abbrev DB := List ScheduledPost

/-- The `id TEXT PRIMARY KEY` constraint of the schema: row ids are
pairwise distinct. -/
def UniqueIds (db : DB) : Prop := (db.map (fun p => p.id)).Nodup

instance (db : DB) : Decidable (UniqueIds db) := by
  unfold UniqueIds; infer_instance

/-- Semantics of `UPDATE scheduled_posts SET ... WHERE ...`: apply the
assignment to every row matching the condition; the second component is
`result.changes`, the number of matched rows. -/
def sqlUpdate (db : DB) (cond : ScheduledPost → Bool)
    (assign : ScheduledPost → ScheduledPost) : DB × Nat :=
  (db.map (fun p => if cond p then assign p else p), (db.filter cond).length)

/-- `getScheduledPost(id)`: `SELECT * FROM scheduled_posts WHERE id = ?`,
returning the first matching row or `null`. -/
def getScheduledPost (db : DB) (id : Nat) : Option ScheduledPost :=
  db.find? (fun p => p.id == id)

/-- `addScheduledPost(data)`: `INSERT` of a fresh row with
`status = 'pending'` and `retry_count` defaulting to `0`, followed by the
`getScheduledPost(id)` read-back the method returns.  The generated
`uuidv4()` and the `new Date().toISOString()` value are the `id` and
`createdAt` arguments. -/
def addScheduledPost (db : DB) (id : Nat) (createdAt : Nat)
    (commentary : String) (scheduledTime : Nat) (url : Option String)
    (visibility : String) : DB × Option ScheduledPost :=
  let p : ScheduledPost :=
    { id := id, commentary := commentary, url := url,
      visibility := visibility, scheduledTime := scheduledTime,
      status := Status.pending, createdAt := createdAt,
      publishedAt := none, postUrn := none, errorMessage := none,
      retryCount := 0 }
  let db2 := db ++ [p]
  (db2, getScheduledPost db2 id)

/-- Ordering used to embed `ORDER BY scheduled_time ASC`. -/
def byScheduledTime (a b : ScheduledPost) : Prop :=
  a.scheduledTime ≤ b.scheduledTime

instance : DecidableRel byScheduledTime :=
  fun a b => Nat.decLe a.scheduledTime b.scheduledTime

instance : IsTotal ScheduledPost byScheduledTime :=
  ⟨fun a b => Nat.le_total a.scheduledTime b.scheduledTime⟩

instance : IsTrans ScheduledPost byScheduledTime :=
  ⟨fun _ _ _ hab hbc => Nat.le_trans hab hbc⟩

/-- `getScheduledPosts(status, limit)`: optional status filter,
`ORDER BY scheduled_time ASC`, `LIMIT ?`. -/
def getScheduledPosts (db : DB) (status : Option Status) (limit : Nat) :
    List ScheduledPost :=
  match status with
  | some s => ((db.filter (fun p => p.status == s)).insertionSort
      byScheduledTime).take limit
  | none => (db.insertionSort byScheduledTime).take limit

/-- `getDuePosts()`: `WHERE status = 'pending' AND scheduled_time <= ?`
with the current time bound to `now`, `ORDER BY scheduled_time ASC`, and no
`LIMIT` clause. -/
def getDuePosts (db : DB) (now : Nat) : List ScheduledPost :=
  (db.filter (fun p =>
    p.status == Status.pending &&
      decide (p.scheduledTime ≤ now))).insertionSort byScheduledTime

/-- `markAsPublished(id, postUrn)`: unconditional
`UPDATE ... SET status = 'published', published_at = ?, post_urn = ?
WHERE id = ?` — note the `WHERE` clause checks only the id, not the current
status — followed by the read-back the method returns. -/
def markAsPublished (db : DB) (id : Nat) (publishedAt : Nat)
    (postUrn : String) : DB × Option ScheduledPost :=
  let r := sqlUpdate db (fun p => p.id == id)
    (fun p => { p with
                status := Status.published,
                publishedAt := some publishedAt,
                postUrn := some postUrn })
  (r.1, getScheduledPost r.1 id)

/-- `markAsFailed(id, errorMessage)`: unconditional
`UPDATE ... SET status = 'failed', error_message = ?,
retry_count = retry_count + 1 WHERE id = ?`, followed by the read-back. -/
def markAsFailed (db : DB) (id : Nat) (errorMessage : String) :
    DB × Option ScheduledPost :=
  let r := sqlUpdate db (fun p => p.id == id)
    (fun p => { p with
                status := Status.failed,
                errorMessage := some errorMessage,
                retryCount := p.retryCount + 1 })
  (r.1, getScheduledPost r.1 id)

/-- `cancelPost(id)`: conditional
`UPDATE ... SET status = 'cancelled' WHERE id = ? AND status = 'pending'`;
when `result.changes === 0` the method returns `null`, otherwise the
read-back of the row. -/
def cancelPost (db : DB) (id : Nat) : DB × Option ScheduledPost :=
  let r := sqlUpdate db
    (fun p => p.id == id && p.status == Status.pending)
    (fun p => { p with status := Status.cancelled })
  if r.2 = 0 then (r.1, none) else (r.1, getScheduledPost r.1 id)

/-- `deleteScheduledPost(id)`: `DELETE FROM scheduled_posts WHERE id = ?`,
returning `result.changes > 0`. -/
def deleteScheduledPost (db : DB) (id : Nat) : DB × Bool :=
  (db.filter (fun p => !(p.id == id)),
   decide (0 < (db.filter (fun p => p.id == id)).length))

/-- `resetForRetry(id)`: conditional
`UPDATE ... SET status = 'pending', error_message = NULL
WHERE id = ? AND status = 'failed'`; `null` when no row changed.  The
`SET` list does not touch `retry_count`. -/
def resetForRetry (db : DB) (id : Nat) : DB × Option ScheduledPost :=
  let r := sqlUpdate db
    (fun p => p.id == id && p.status == Status.failed)
    (fun p => { p with status := Status.pending, errorMessage := none })
  if r.2 = 0 then (r.1, none) else (r.1, getScheduledPost r.1 id)

/-- `reschedulePost(id, newScheduledTime)`: conditional
`UPDATE ... SET scheduled_time = ? WHERE id = ? AND status = 'pending'`;
`null` when no row changed. -/
def reschedulePost (db : DB) (id : Nat) (newScheduledTime : Nat) :
    DB × Option ScheduledPost :=
  let r := sqlUpdate db
    (fun p => p.id == id && p.status == Status.pending)
    (fun p => { p with scheduledTime := newScheduledTime })
  if r.2 = 0 then (r.1, none) else (r.1, getScheduledPost r.1 id)

/-! Scheduler daemon (`src/scheduler.js`): `MAX_RETRIES`, `publishPost`,
`processDuePosts`, and the startup check of `startScheduler`. -/

/-- `MAX_RETRIES` constant of the scheduler daemon. -/
def MAX_RETRIES : Nat := 3

/-- Outcome of `publishPost(scheduledPost)`.  The JavaScript function wraps
the LinkedIn API call in `try/catch` and always resolves to either
`success: true, postUrn` or `success: false, error`, so the publish
adapter is embedded as a total function into this type. -/
inductive PublishOutcome where
  | ok (postUrn : String)
  | fail (error : String)
deriving DecidableEq, Repr

/-- Body of the `for (const post of duePosts)` loop of `processDuePosts`:
on success `markAsPublished`; on failure `markAsFailed` (which increments
`retry_count`) and, when `post.retryCount + 1 < MAX_RETRIES` — computed
from the snapshot row, exactly as in the source — `resetForRetry`.
`publishedAt` stands for the `new Date().toISOString()` taken inside
`markAsPublished`. -/
def processOnePost (publish : ScheduledPost → PublishOutcome)
    (publishedAt : Nat) (db : DB) (post : ScheduledPost) : DB :=
  match publish post with
  | PublishOutcome.ok urn => (markAsPublished db post.id publishedAt urn).1
  | PublishOutcome.fail err =>
      let db2 := (markAsFailed db post.id err).1
      if post.retryCount + 1 < MAX_RETRIES then
        (resetForRetry db2 post.id).1
      else
        db2

/-- State transformation of one daemon tick: `processDuePosts` reads the
due snapshot once and folds the loop body over it.  The returned
published/failed counters and the log lines do not affect the store and
are omitted. -/
def processDuePosts (db : DB) (publish : ScheduledPost → PublishOutcome)
    (now : Nat) (publishedAt : Nat) : DB :=
  (getDuePosts db now).foldl (processOnePost publish publishedAt) db

/-- A sequence of daemon ticks, each with its own publish adapter, due
check time, and publish timestamp. -/
def runTicks (db : DB)
    (ticks : List ((ScheduledPost → PublishOutcome) × Nat × Nat)) : DB :=
  ticks.foldl (fun d t => processDuePosts d t.1 t.2.1 t.2.2) db

/-! Fallible-store view of the daemon, for the storage-failure analysis.
Each database call of `processDuePosts` can reject; the JavaScript
function contains no `try/catch` around these calls, so the embedding is
the straightforward `Except`-monadic reading in which a store error
propagates out of the tick. -/

/-- The four store calls `processDuePosts` performs, each able to fail
(an exception from `better-sqlite3` rejects the enclosing promise). -/
structure SchedulerStore where
  getDue : Except String (List ScheduledPost)
  markPub : Nat → String → Except String Unit
  markFail : Nat → String → Except String Unit
  resetRetry : Nat → Except String Unit

/-- Body of the due-post loop over the fallible store, updating the
`published`/`failed` counters.  An error from any awaited store call
propagates; the publish adapter's own failures arrive already absorbed as
`PublishOutcome.fail`. -/
def processLoopBody (store : SchedulerStore)
    (publish : ScheduledPost → PublishOutcome) (counts : Nat × Nat)
    (post : ScheduledPost) : Except String (Nat × Nat) :=
  match publish post with
  | PublishOutcome.ok urn =>
      match store.markPub post.id urn with
      | Except.error m => Except.error m
      | Except.ok _ => Except.ok (counts.1 + 1, counts.2)
  | PublishOutcome.fail err =>
      match store.markFail post.id err with
      | Except.error m => Except.error m
      | Except.ok _ =>
          if post.retryCount + 1 < MAX_RETRIES then
            match store.resetRetry post.id with
            | Except.error m => Except.error m
            | Except.ok _ => Except.ok (counts.1, counts.2 + 1)
          else
            Except.ok (counts.1, counts.2 + 1)

/-- Sequential loop over the due posts; the first store error aborts the
whole loop, as the JavaScript `for ... await` does. -/
def processLoop (store : SchedulerStore)
    (publish : ScheduledPost → PublishOutcome) :
    Nat × Nat → List ScheduledPost → Except String (Nat × Nat)
  | counts, [] => Except.ok counts
  | counts, post :: rest =>
      match processLoopBody store publish counts post with
      | Except.error m => Except.error m
      | Except.ok counts2 => processLoop store publish counts2 rest

/-- `processDuePosts` over a fallible store, returning the
`published`/`failed` counters.  The structure is exactly that of the
JavaScript function: one `getDuePosts` read, then the sequential loop; no
`try/catch` surrounds any store call. -/
def processDuePostsE (store : SchedulerStore)
    (publish : ScheduledPost → PublishOutcome) :
    Except String (Nat × Nat) :=
  match store.getDue with
  | Except.error m => Except.error m
  | Except.ok duePosts => processLoop store publish (0, 0) duePosts

/-- The immediate startup check of `startScheduler`:
`processDuePosts().then(handler)` with no `.catch` attached — the success
handler formats a log line, and an error passes through unhandled. -/
def startupInitialCheck (store : SchedulerStore)
    (publish : ScheduledPost → PublishOutcome) : Except String String :=
  (processDuePostsE store publish).map (fun counts =>
    "Initial check: " ++ toString counts.1 ++ " published, " ++
      toString counts.2 ++ " failed")

/-! Tool layer (`src/src/tools.js`) and the Zod schemas it parses input
with (`src/schemas.js`). -/

/-- Raw argument object of `linkedin_schedule_post` before validation.
`visibility` is optional with Zod default `PUBLIC`. -/
structure SchedulePostInput where
  commentary : String
  scheduledTime : Nat
  url : Option String
  visibility : Option String
deriving DecidableEq, Repr

/-- Validated `SchedulePostInputSchema` data. -/
structure SchedulePostArgs where
  commentary : String
  scheduledTime : Nat
  url : Option String
  visibility : String
deriving DecidableEq, Repr

/-- `SchedulePostInputSchema.parse`: commentary length in 1..3000,
`visibility` defaulting to `PUBLIC`, and the `.refine` check
`new Date(data.scheduledTime) > new Date()` — strictly in the future.
The `.datetime()` format check is vacuous in the `Nat` embedding of
timestamps. -/
def parseSchedulePostInput (now : Nat) (inp : SchedulePostInput) :
    Except String SchedulePostArgs :=
  if inp.commentary.length < 1 then
    Except.error "Commentary cannot be empty"
  else if 3000 < inp.commentary.length then
    Except.error "Commentary must be 3000 characters or less"
  else if now < inp.scheduledTime then
    Except.ok { commentary := inp.commentary,
                scheduledTime := inp.scheduledTime,
                url := inp.url,
                visibility := inp.visibility.getD "PUBLIC" }
  else
    Except.error "scheduledTime must be in the future"

/-- Result object of `linkedin_schedule_post`.  The human-readable
formatted time inside `message` is locale glue and is embedded as a fixed
string. -/
structure SchedulePostOutput where
  postId : Nat
  scheduledTime : Nat
  status : Status
  message : String
deriving DecidableEq, Repr

/-- `linkedin_schedule_post(input)`: validate (throwing before any store
access), then `db.addScheduledPost` and the response built from the
created record.  `newId` and `createdAt` are the `uuidv4()` and
`new Date()` values drawn inside `addScheduledPost`. -/
def linkedin_schedule_post (db : DB) (now : Nat) (newId : Nat)
    (createdAt : Nat) (inp : SchedulePostInput) :
    Except String (DB × SchedulePostOutput) :=
  match parseSchedulePostInput now inp with
  | Except.error m => Except.error m
  | Except.ok v =>
      let r := addScheduledPost db newId createdAt v.commentary
        v.scheduledTime v.url v.visibility
      match r.2 with
      | some post =>
          Except.ok (r.1, { postId := post.id,
                            scheduledTime := post.scheduledTime,
                            status := post.status,
                            message := "Post scheduled" })
      | none => Except.error "scheduled post not readable after insert"

/-- Raw argument object of `linkedin_list_scheduled_posts`.  The raw
`limit` is an arbitrary JSON number, embedded as `ℚ` so that the Zod
`.int()` check is meaningful. -/
structure ListScheduledPostsInput where
  status : Option Status
  limit : Option ℚ
deriving DecidableEq, Repr

/-- Limit handling of `ListScheduledPostsInputSchema`: `.int()`,
`.min(1)`, `.max(100)`, `.default(50)`. -/
def parseListLimit (limit : Option ℚ) : Except String Nat :=
  match limit with
  | none => Except.ok 50
  | some q =>
      if q.den ≠ 1 then Except.error "Limit must be an integer"
      else if q < 1 then Except.error "Limit must be at least 1"
      else if 100 < q then Except.error "Limit cannot exceed 100"
      else Except.ok q.num.toNat

/-- Result object of `linkedin_list_scheduled_posts`. -/
structure ListScheduledPostsOutput where
  posts : List ScheduledPost
  count : Nat
  message : String
deriving DecidableEq, Repr

/-- `linkedin_list_scheduled_posts(input)`: validate with defaults, then
`db.getScheduledPosts(status, limit)` and a response carrying the posts
plus `count: posts.length`. -/
def linkedin_list_scheduled_posts (db : DB)
    (inp : ListScheduledPostsInput) :
    Except String ListScheduledPostsOutput :=
  match parseListLimit inp.limit with
  | Except.error m => Except.error m
  | Except.ok limit =>
      let posts := getScheduledPosts db inp.status limit
      Except.ok { posts := posts, count := posts.length,
                  message := "Found scheduled posts" }

/-- Result object of `linkedin_cancel_scheduled_post`. -/
structure CancelScheduledPostOutput where
  postId : Nat
  status : Status
  message : String
  success : Bool
deriving DecidableEq, Repr

/-- Error text thrown by `linkedin_cancel_scheduled_post` when
`db.cancelPost` returns `null`; the single message covers both the
missing-id case and the not-pending case. -/
def cancelNotFoundMessage (postId : Nat) : String :=
  "Post not found or not in pending status: " ++ toString postId

/-- `linkedin_cancel_scheduled_post(input)`: `db.cancelPost(postId)`; on
`null` throw the combined error, otherwise the success response.  The
UUID-format check of `CancelScheduledPostInputSchema` is vacuous in the
`Nat` embedding of ids. -/
def linkedin_cancel_scheduled_post (db : DB) (postId : Nat) :
    Except String (DB × CancelScheduledPostOutput) :=
  let r := cancelPost db postId
  match r.2 with
  | none => Except.error (cancelNotFoundMessage postId)
  | some post =>
      Except.ok (r.1, { postId := post.id,
                        status := Status.cancelled,
                        message := "Scheduled post cancelled successfully",
                        success := true })

/-! Concrete sample data used in the closed-form checks. -/

/-- Sample record in the `cancelled` state. -/
def demoCancelled : ScheduledPost :=
  { id := 1, commentary := "hello", url := none, visibility := "PUBLIC",
    scheduledTime := 100, status := Status.cancelled, createdAt := 0,
    publishedAt := none, postUrn := none, errorMessage := none,
    retryCount := 0 }

/-- Sample record in the `pending` state. -/
def demoPending : ScheduledPost :=
  { demoCancelled with
    id := 2, scheduledTime := 50, status := Status.pending }

/-- Sample record in the `failed` state. -/
def demoFailed : ScheduledPost :=
  { demoCancelled with
    id := 3, scheduledTime := 60, status := Status.failed,
    errorMessage := some "rate limited", retryCount := 1 }

/-- Sample `pending` record that has already failed twice. -/
def demoPendingR2 : ScheduledPost :=
  { demoCancelled with
    id := 4, scheduledTime := 40, status := Status.pending,
    retryCount := 2 }

/-- Publish adapter that always reports a failure. -/
def alwaysFail : ScheduledPost → PublishOutcome :=
  fun _ => PublishOutcome.fail "network error"

/-- Fallible store whose due-post read fails. -/
def failingStore : SchedulerStore :=
  { getDue := Except.error "database read failed",
    markPub := fun _ _ => Except.ok (),
    markFail := fun _ _ => Except.ok (),
    resetRetry := fun _ => Except.ok () }

/-- Fallible store whose operations all succeed. -/
def okStore : SchedulerStore :=
  { getDue := Except.ok [demoPendingR2],
    markPub := fun _ _ => Except.ok (),
    markFail := fun _ _ => Except.ok (),
    resetRetry := fun _ => Except.ok () }

/-! Helper lemmas about lookups and `UPDATE` images. -/

theorem getScheduledPost_cons (a : ScheduledPost) (tl : DB) (i : Nat) :
    getScheduledPost (a :: tl) i =
      if a.id == i then some a else getScheduledPost tl i := by
  by_cases h : a.id == i
  · simp [getScheduledPost, List.find?_cons_of_pos, h]
  · simp [getScheduledPost, List.find?_cons_of_neg, h]

theorem getScheduledPost_map_ite (db : DB) (i : Nat)
    (cond : ScheduledPost → Bool) (g : ScheduledPost → ScheduledPost)
    (hg : ∀ q, (g q).id = q.id) :
    getScheduledPost (db.map (fun q => if cond q then g q else q)) i =
      Option.map (fun q => if cond q then g q else q)
        (getScheduledPost db i) := by
  induction db with
  | nil => rfl
  | cons a tl ih =>
      have hid : ((if cond a then g a else a).id == i) = (a.id == i) := by
        by_cases h : cond a <;> simp [h, hg a]
      rw [List.map_cons, getScheduledPost_cons, getScheduledPost_cons, hid]
      by_cases h : a.id == i
      · simp [h]
      · simp [h, ih]

theorem getScheduledPost_mem {db : DB} {i : Nat} {p : ScheduledPost}
    (h : getScheduledPost db i = some p) : p ∈ db ∧ p.id = i := by
  refine ⟨List.mem_of_find?_eq_some h, ?_⟩
  have h2 := List.find?_some h
  simpa using h2

theorem getScheduledPost_isSome_iff {db : DB} {i : Nat} :
    (getScheduledPost db i).isSome ↔ ∃ p ∈ db, p.id = i := by
  simp [getScheduledPost, List.find?_isSome]

theorem eq_of_mem_of_same_id {db : DB} (hu : UniqueIds db)
    {p q : ScheduledPost} (hp : p ∈ db) (hq : q ∈ db) (h : p.id = q.id) :
    p = q :=
  List.inj_on_of_nodup_map hu hp hq h

theorem getScheduledPost_of_mem {db : DB} (hu : UniqueIds db)
    {p : ScheduledPost} (hp : p ∈ db) :
    getScheduledPost db p.id = some p := by
  cases hfind : getScheduledPost db p.id with
  | none =>
      have hs : (getScheduledPost db p.id).isSome := by
        rw [getScheduledPost_isSome_iff]
        exact ⟨p, hp, rfl⟩
      rw [hfind] at hs
      simp at hs
  | some q =>
      have hq := getScheduledPost_mem hfind
      have heq : q = p := eq_of_mem_of_same_id hu hq.1 hp hq.2
      rw [heq]

theorem map_ite_eq_self {db : DB} {cond : ScheduledPost → Bool}
    {g : ScheduledPost → ScheduledPost}
    (h : ∀ q ∈ db, cond q = false) :
    db.map (fun q => if cond q then g q else q) = db := by
  have h2 : db.map (fun q => if cond q then g q else q) = db.map id :=
    List.map_congr_left (fun a ha => by simp [h a ha])
  simpa using h2

theorem mem_map_ite_of_not_cond {db : DB} {cond : ScheduledPost → Bool}
    {g : ScheduledPost → ScheduledPost} {p : ScheduledPost}
    (hp : p ∈ db) (h : cond p = false) :
    p ∈ db.map (fun q => if cond q then g q else q) := by
  have h2 := List.mem_map_of_mem (fun q => if cond q then g q else q) hp
  simpa [h] using h2

theorem map_ite_proj {β : Type} (proj : ScheduledPost → β) {db : DB}
    {cond : ScheduledPost → Bool} {g : ScheduledPost → ScheduledPost}
    (hg : ∀ q, proj (g q) = proj q) :
    (db.map (fun q => if cond q then g q else q)).map proj =
      db.map proj := by
  rw [List.map_map]
  exact List.map_congr_left (fun a _ => by
    by_cases h : cond a <;> simp [h, hg a])

theorem uniqueIds_map_ite {db : DB} {cond : ScheduledPost → Bool}
    {g : ScheduledPost → ScheduledPost} (hg : ∀ q, (g q).id = q.id)
    (hu : UniqueIds db) :
    UniqueIds (db.map (fun q => if cond q then g q else q)) := by
  unfold UniqueIds
  rw [map_ite_proj (fun p => p.id) hg]
  exact hu

theorem filter_length_eq_zero_iff {db : DB} {cond : ScheduledPost → Bool} :
    ((db.filter cond).length = 0) ↔ ∀ q ∈ db, ¬ cond q := by
  rw [List.length_eq_zero, List.filter_eq_nil_iff]

theorem filter_length_ne_zero_of_mem {db : DB} {cond : ScheduledPost → Bool}
    {p : ScheduledPost} (hp : p ∈ db) (hc : cond p) :
    ¬ ((db.filter cond).length = 0) := by
  intro h
  exact (filter_length_eq_zero_iff.mp h) p hp hc

theorem map_ite_lookup_unchanged {db : DB} {j : Nat}
    {cond : ScheduledPost → Bool} {g : ScheduledPost → ScheduledPost}
    (hg : ∀ q, (g q).id = q.id)
    (h : ∀ q, q.id = j → cond q = false) :
    getScheduledPost (db.map (fun q => if cond q then g q else q)) j =
      getScheduledPost db j := by
  rw [getScheduledPost_map_ite db j cond g hg]
  cases hl : getScheduledPost db j with
  | none => rfl
  | some q =>
      have hq := getScheduledPost_mem hl
      simp [h q hq.2]

theorem forall₂_retry_le {db : DB} {f : ScheduledPost → ScheduledPost}
    (hf : ∀ q, q.retryCount ≤ (f q).retryCount) :
    List.Forall₂ (fun a b => a.retryCount ≤ b.retryCount) db (db.map f) := by
  induction db with
  | nil => exact List.Forall₂.nil
  | cons a tl ih => exact List.Forall₂.cons (hf a) ih

theorem getScheduledPost_append_fresh {db : DB} {p : ScheduledPost}
    {i : Nat} (hpi : p.id = i) (h : ∀ q ∈ db, q.id ≠ i) :
    getScheduledPost (db ++ [p]) i = some p := by
  induction db with
  | nil => simp [getScheduledPost_cons, hpi]
  | cons a tl ih =>
      rw [List.cons_append, getScheduledPost_cons]
      have ha : (a.id == i) = false := by
        simp [h a (List.mem_cons_self a tl)]
      simp only [ha, if_false]
      exact ih (fun q hq => h q (List.mem_cons_of_mem a hq))

theorem filter_length_eq_zero_of_false {db : DB}
    {cond : ScheduledPost → Bool} (h : ∀ q ∈ db, cond q = false) :
    (db.filter cond).length = 0 :=
  filter_length_eq_zero_iff.mpr (fun q hq => by simp [h q hq])

/-! Characterizations of the individual store operations. -/

theorem markAsPublished_fst (db : DB) (i t : Nat) (u : String) :
    (markAsPublished db i t u).1 = db.map (fun p =>
      if p.id == i then
        { p with
          status := Status.published,
          publishedAt := some t,
          postUrn := some u }
      else p) := rfl

theorem markAsFailed_fst (db : DB) (i : Nat) (e : String) :
    (markAsFailed db i e).1 = db.map (fun p =>
      if p.id == i then
        { p with
          status := Status.failed,
          errorMessage := some e,
          retryCount := p.retryCount + 1 }
      else p) := rfl

theorem cancelPost_fst (db : DB) (i : Nat) :
    (cancelPost db i).1 = db.map (fun q =>
      if q.id == i && q.status == Status.pending then
        { q with status := Status.cancelled }
      else q) := by
  simp only [cancelPost, sqlUpdate]
  split <;> rfl

theorem resetForRetry_fst (db : DB) (i : Nat) :
    (resetForRetry db i).1 = db.map (fun q =>
      if q.id == i && q.status == Status.failed then
        { q with status := Status.pending, errorMessage := none }
      else q) := by
  simp only [resetForRetry, sqlUpdate]
  split <;> rfl

theorem reschedulePost_fst (db : DB) (i t : Nat) :
    (reschedulePost db i t).1 = db.map (fun q =>
      if q.id == i && q.status == Status.pending then
        { q with scheduledTime := t }
      else q) := by
  simp only [reschedulePost, sqlUpdate]
  split <;> rfl

theorem markAsPublished_lookup {db : DB} {p : ScheduledPost}
    (hu : UniqueIds db) (hm : p ∈ db) (t : Nat) (u : String) :
    getScheduledPost (markAsPublished db p.id t u).1 p.id =
      some { p with
             status := Status.published,
             publishedAt := some t,
             postUrn := some u } := by
  rw [markAsPublished_fst,
    getScheduledPost_map_ite db p.id _ _ (by intro q; rfl),
    getScheduledPost_of_mem hu hm]
  simp

theorem markAsFailed_lookup {db : DB} {p : ScheduledPost}
    (hu : UniqueIds db) (hm : p ∈ db) (e : String) :
    getScheduledPost (markAsFailed db p.id e).1 p.id =
      some { p with
             status := Status.failed,
             errorMessage := some e,
             retryCount := p.retryCount + 1 } := by
  rw [markAsFailed_fst,
    getScheduledPost_map_ite db p.id _ _ (by intro q; rfl),
    getScheduledPost_of_mem hu hm]
  simp

theorem cancelPost_of_no_match {db : DB} {i : Nat}
    (h : ∀ q ∈ db, (q.id == i && q.status == Status.pending) = false) :
    cancelPost db i = (db, none) := by
  have hz : (db.filter
      (fun q => q.id == i && q.status == Status.pending)).length = 0 :=
    filter_length_eq_zero_of_false h
  simp only [cancelPost, sqlUpdate]
  rw [if_pos hz, map_ite_eq_self h]

theorem cancelPost_snd_some {db : DB} {i : Nat} {p : ScheduledPost}
    (hu : UniqueIds db) (hm : p ∈ db) (hid : p.id = i)
    (hs : p.status = Status.pending) :
    (cancelPost db i).2 = some { p with status := Status.cancelled } := by
  have hc : (p.id == i && p.status == Status.pending) = true := by
    simp [hid, hs]
  have hnz : ¬ ((db.filter
      (fun q => q.id == i && q.status == Status.pending)).length = 0) :=
    filter_length_ne_zero_of_mem hm hc
  simp only [cancelPost, sqlUpdate]
  rw [if_neg hnz]
  have hlook : getScheduledPost db i = some p := by
    rw [← hid]
    exact getScheduledPost_of_mem hu hm
  show getScheduledPost _ i = _
  rw [getScheduledPost_map_ite db i _ _ (by intro q; rfl), hlook,
    Option.map_some', if_pos hc]

theorem resetForRetry_of_no_match {db : DB} {i : Nat}
    (h : ∀ q ∈ db, (q.id == i && q.status == Status.failed) = false) :
    resetForRetry db i = (db, none) := by
  have hz : (db.filter
      (fun q => q.id == i && q.status == Status.failed)).length = 0 :=
    filter_length_eq_zero_of_false h
  simp only [resetForRetry, sqlUpdate]
  rw [if_pos hz, map_ite_eq_self h]

theorem resetForRetry_snd_some {db : DB} {i : Nat} {p : ScheduledPost}
    (hu : UniqueIds db) (hm : p ∈ db) (hid : p.id = i)
    (hs : p.status = Status.failed) :
    (resetForRetry db i).2 =
      some { p with status := Status.pending, errorMessage := none } := by
  have hc : (p.id == i && p.status == Status.failed) = true := by
    simp [hid, hs]
  have hnz : ¬ ((db.filter
      (fun q => q.id == i && q.status == Status.failed)).length = 0) :=
    filter_length_ne_zero_of_mem hm hc
  simp only [resetForRetry, sqlUpdate]
  rw [if_neg hnz]
  have hlook : getScheduledPost db i = some p := by
    rw [← hid]
    exact getScheduledPost_of_mem hu hm
  show getScheduledPost _ i = _
  rw [getScheduledPost_map_ite db i _ _ (by intro q; rfl), hlook,
    Option.map_some', if_pos hc]

theorem reschedulePost_of_no_match {db : DB} {i t : Nat}
    (h : ∀ q ∈ db, (q.id == i && q.status == Status.pending) = false) :
    reschedulePost db i t = (db, none) := by
  have hz : (db.filter
      (fun q => q.id == i && q.status == Status.pending)).length = 0 :=
    filter_length_eq_zero_of_false h
  simp only [reschedulePost, sqlUpdate]
  rw [if_pos hz, map_ite_eq_self h]

theorem reschedulePost_snd_some {db : DB} {i t : Nat} {p : ScheduledPost}
    (hu : UniqueIds db) (hm : p ∈ db) (hid : p.id = i)
    (hs : p.status = Status.pending) :
    (reschedulePost db i t).2 = some { p with scheduledTime := t } := by
  have hc : (p.id == i && p.status == Status.pending) = true := by
    simp [hid, hs]
  have hnz : ¬ ((db.filter
      (fun q => q.id == i && q.status == Status.pending)).length = 0) :=
    filter_length_ne_zero_of_mem hm hc
  simp only [reschedulePost, sqlUpdate]
  rw [if_neg hnz]
  have hlook : getScheduledPost db i = some p := by
    rw [← hid]
    exact getScheduledPost_of_mem hu hm
  show getScheduledPost _ i = _
  rw [getScheduledPost_map_ite db i _ _ (by intro q; rfl), hlook,
    Option.map_some', if_pos hc]

/-! Daemon-level helper lemmas. -/

theorem markAsPublished_ids (db : DB) (i t : Nat) (u : String) :
    ((markAsPublished db i t u).1).map (fun p => p.id) =
      db.map (fun p => p.id) := by
  rw [markAsPublished_fst]
  exact map_ite_proj (fun p => p.id) (by intro q; rfl)

theorem markAsFailed_ids (db : DB) (i : Nat) (e : String) :
    ((markAsFailed db i e).1).map (fun p => p.id) =
      db.map (fun p => p.id) := by
  rw [markAsFailed_fst]
  exact map_ite_proj (fun p => p.id) (by intro q; rfl)

theorem resetForRetry_ids (db : DB) (i : Nat) :
    ((resetForRetry db i).1).map (fun p => p.id) =
      db.map (fun p => p.id) := by
  rw [resetForRetry_fst]
  exact map_ite_proj (fun p => p.id) (by intro q; rfl)

theorem processOnePost_ids (publish : ScheduledPost → PublishOutcome)
    (t : Nat) (d : DB) (post : ScheduledPost) :
    (processOnePost publish t d post).map (fun p => p.id) =
      d.map (fun p => p.id) := by
  cases hp : publish post with
  | ok urn =>
      simp only [processOnePost, hp]
      exact markAsPublished_ids d post.id t urn
  | fail err =>
      simp only [processOnePost, hp]
      by_cases hr : post.retryCount + 1 < MAX_RETRIES
      · rw [if_pos hr, resetForRetry_ids, markAsFailed_ids]
      · rw [if_neg hr, markAsFailed_ids]

theorem foldl_processOnePost_ids (publish : ScheduledPost → PublishOutcome)
    (t : Nat) (posts : List ScheduledPost) :
    ∀ d : DB,
      (posts.foldl (processOnePost publish t) d).map (fun p => p.id) =
        d.map (fun p => p.id) := by
  induction posts with
  | nil => intro d; rfl
  | cons a tl ih =>
      intro d
      rw [List.foldl_cons, ih, processOnePost_ids]

theorem processDuePosts_ids (db : DB)
    (publish : ScheduledPost → PublishOutcome) (now t : Nat) :
    (processDuePosts db publish now t).map (fun p => p.id) =
      db.map (fun p => p.id) :=
  foldl_processOnePost_ids publish t (getDuePosts db now) db

theorem uniqueIds_processDuePosts {db : DB} (hu : UniqueIds db)
    (publish : ScheduledPost → PublishOutcome) (now t : Nat) :
    UniqueIds (processDuePosts db publish now t) := by
  unfold UniqueIds
  rw [processDuePosts_ids]
  exact hu

theorem processOnePost_lookup_other
    {publish : ScheduledPost → PublishOutcome} {t : Nat} {d : DB}
    {post : ScheduledPost} {j : Nat} (h : post.id ≠ j) :
    getScheduledPost (processOnePost publish t d post) j =
      getScheduledPost d j := by
  have hidq : ∀ q : ScheduledPost, q.id = j → (q.id == post.id) = false := by
    intro q hq
    rw [hq]
    exact beq_eq_false_iff_ne.mpr (fun hh => h hh.symm)
  cases hp : publish post with
  | ok urn =>
      simp only [processOnePost, hp]
      rw [markAsPublished_fst]
      exact map_ite_lookup_unchanged (by intro q; rfl) hidq
  | fail err =>
      simp only [processOnePost, hp]
      by_cases hr : post.retryCount + 1 < MAX_RETRIES
      · rw [if_pos hr, resetForRetry_fst, markAsFailed_fst,
          map_ite_lookup_unchanged (by intro q; rfl)
            (fun q hq => by rw [hidq q hq, Bool.false_and])]
        exact map_ite_lookup_unchanged (by intro q; rfl) hidq
      · rw [if_neg hr, markAsFailed_fst]
        exact map_ite_lookup_unchanged (by intro q; rfl) hidq

theorem foldl_lookup_unchanged
    {publish : ScheduledPost → PublishOutcome} {t : Nat} {i : Nat}
    (posts : List ScheduledPost) (hps : ∀ post ∈ posts, post.id ≠ i) :
    ∀ d : DB,
      getScheduledPost (posts.foldl (processOnePost publish t) d) i =
        getScheduledPost d i := by
  induction posts with
  | nil => intro d; rfl
  | cons a tl ih =>
      intro d
      rw [List.foldl_cons,
        ih (fun post hpost => hps post (List.mem_cons_of_mem a hpost)),
        processOnePost_lookup_other (hps a (List.mem_cons_self a tl))]

theorem getDuePosts_mem {db : DB} {now : Nat} {p : ScheduledPost} :
    p ∈ getDuePosts db now ↔
      p ∈ db ∧ p.status = Status.pending ∧ p.scheduledTime ≤ now := by
  unfold getDuePosts
  rw [List.mem_insertionSort, List.mem_filter]
  simp [and_assoc]

theorem due_id_ne_of_not_pending {db : DB} {i now : Nat}
    {q : ScheduledPost} (hu : UniqueIds db)
    (hl : getScheduledPost db i = some q)
    (hs : q.status ≠ Status.pending) :
    ∀ post ∈ getDuePosts db now, post.id ≠ i := by
  intro post hpost hpi
  have hm := getDuePosts_mem.mp hpost
  have hq := getScheduledPost_mem hl
  have heq : post = q :=
    eq_of_mem_of_same_id hu hm.1 hq.1 (by rw [hpi, hq.2])
  exact hs (by rw [← heq]; exact hm.2.1)

theorem processDuePosts_lookup_stable {db : DB} {i : Nat}
    {q : ScheduledPost} (hu : UniqueIds db)
    (hl : getScheduledPost db i = some q)
    (hs : q.status ≠ Status.pending)
    (publish : ScheduledPost → PublishOutcome) (now t : Nat) :
    getScheduledPost (processDuePosts db publish now t) i = some q := by
  unfold processDuePosts
  rw [foldl_lookup_unchanged (getDuePosts db now)
    (due_id_ne_of_not_pending hu hl hs) db, hl]

theorem runTicks_lookup_stable {i : Nat} {q : ScheduledPost}
    (hs : q.status ≠ Status.pending) :
    ∀ (ticks : List ((ScheduledPost → PublishOutcome) × Nat × Nat))
      (db : DB), UniqueIds db → getScheduledPost db i = some q →
      getScheduledPost (runTicks db ticks) i = some q ∧
        UniqueIds (runTicks db ticks) := by
  intro ticks
  induction ticks with
  | nil => intro db hu hl; exact ⟨hl, hu⟩
  | cons tk tl ih =>
      intro db hu hl
      have h2 := uniqueIds_processDuePosts hu tk.1 tk.2.1 tk.2.2
      have h1 := processDuePosts_lookup_stable hu hl hs tk.1 tk.2.1 tk.2.2
      have hstep : runTicks db (tk :: tl) =
          runTicks (processDuePosts db tk.1 tk.2.1 tk.2.2) tl := rfl
      rw [hstep]
      exact ih _ h2 h1

/-! Claim theorems. -/

/-- C4: Due-set correctness — a stored record appears in the result of
`getDuePosts` (the spec's `listDue(now)`) if and only if its status is
`pending` and its `scheduledTime` is at or before `now`; the result is
sorted by `scheduledTime` ascending; and no limit is applied, since the
equivalence preserves every qualifying record. -/
theorem s2p_C4 (db : DB) (now : Nat) :
    (∀ p : ScheduledPost, p ∈ getDuePosts db now ↔
      p ∈ db ∧ p.status = Status.pending ∧ p.scheduledTime ≤ now) ∧
    List.Pairwise (fun a b : ScheduledPost =>
      a.scheduledTime ≤ b.scheduledTime) (getDuePosts db now) := by
  constructor
  · intro p
    exact getDuePosts_mem
  · exact List.sorted_insertionSort byScheduledTime _

/-- C3: Cancel guard — under the primary-key constraint on `id`,
`cancelPost` returns a non-null record iff a row with the given id exists
with status `pending` at call time, in which case the returned record is
that row with status `cancelled`; the check and the write are one
conditional `UPDATE`, a single step of the embedding; and a second
`cancelPost` on the same id returns `null`, so cancelling twice succeeds
at most once. -/
theorem s2p_C3 (db : DB) (i : Nat) (hu : UniqueIds db) :
    ((∃ q, (cancelPost db i).2 = some q) ↔
      ∃ p ∈ db, p.id = i ∧ p.status = Status.pending) ∧
    (∀ p ∈ db, p.id = i → p.status = Status.pending →
      (cancelPost db i).2 = some { p with status := Status.cancelled }) ∧
    (∀ q, (cancelPost db i).2 = some q →
      (cancelPost (cancelPost db i).1 i).2 = none) := by
  have hsome : ∀ p ∈ db, p.id = i → p.status = Status.pending →
      (cancelPost db i).2 = some { p with status := Status.cancelled } :=
    fun p hp hid hs => cancelPost_snd_some hu hp hid hs
  refine ⟨⟨?_, ?_⟩, hsome, ?_⟩
  · rintro ⟨q, hq⟩
    by_contra hne
    push_neg at hne
    have hfalse : ∀ r ∈ db,
        (r.id == i && r.status == Status.pending) = false := by
      intro r hr
      by_cases hri : r.id = i
      · have hrs := hne r hr hri
        simp [hri, hrs]
      · simp [hri]
    rw [cancelPost_of_no_match hfalse] at hq
    simp at hq
  · rintro ⟨p, hp, hid, hs⟩
    exact ⟨_, hsome p hp hid hs⟩
  · intro q hq
    by_cases hex : ∃ p ∈ db, p.id = i ∧ p.status = Status.pending
    · obtain ⟨p, hp, hid, hs⟩ := hex
      have hnomatch : ∀ r ∈ (cancelPost db i).1,
          (r.id == i && r.status == Status.pending) = false := by
        rw [cancelPost_fst]
        intro r hr
        rw [List.mem_map] at hr
        obtain ⟨s, hs2, rfl⟩ := hr
        by_cases hsi : s.id = i
        · have hsp : s = p :=
            eq_of_mem_of_same_id hu hs2 hp (by rw [hsi, hid])
          subst hsp
          simp [hsi, hs]
        · simp [hsi]
      rw [cancelPost_of_no_match hnomatch]
    · have hfalse : ∀ r ∈ db,
          (r.id == i && r.status == Status.pending) = false := by
        intro r hr
        by_cases hri : r.id = i
        · by_cases hrs : r.status = Status.pending
          · exact absurd ⟨r, hr, hri, hrs⟩ hex
          · simp [hri, hrs]
        · simp [hri]
      rw [cancelPost_of_no_match hfalse] at hq
      simp at hq

/-- Witness for C3: the cancel-guard equivalence applied to a concrete
one-row store holding a pending record. -/
theorem s2p_C3_witness :
    (∃ q, (cancelPost [demoPending] 2).2 = some q) ↔
      ∃ p ∈ [demoPending], p.id = 2 ∧ p.status = Status.pending :=
  (s2p_C3 [demoPending] 2 (by decide)).1

/-- C1 counterexample: `markAsPublished` called with the id of a
`cancelled` record does change that record's status — the `UPDATE` of
`markAsPublished` carries no status guard in its `WHERE` clause — so
terminal-state stability fails as stated. -/
theorem s2p_C1_counterexample :
    Option.map (fun p => p.status)
        (getScheduledPost
          (markAsPublished [demoCancelled] 1 200 "urn-li-share-1").1 1) =
      some Status.published ∧
    Status.published ≠ Status.cancelled := by
  constructor
  · decide
  · decide

/-- C1 (amended): once a record is `published` or `cancelled`, the guarded
operations `cancelPost`, `resetForRetry` and `reschedulePost` leave its
row unchanged (and `getScheduledPost`, `getScheduledPosts`, `getDuePosts`
are reads that mutate nothing), but `markAsPublished` and `markAsFailed`
update the row unconditionally: on such a record `markAsPublished` sets
its status to `published` and `markAsFailed` sets it to `failed`,
regardless of the prior terminal status. -/
theorem s2p_C1_amended (db : DB) (i t2 : Nat) (p : ScheduledPost)
    (hm : p ∈ db)
    (hterm : p.status = Status.published ∨ p.status = Status.cancelled) :
    (p ∈ (cancelPost db i).1 ∧ p ∈ (resetForRetry db i).1 ∧
      p ∈ (reschedulePost db i t2).1) ∧
    (∀ (pubAt : Nat) (urn e : String), UniqueIds db →
      getScheduledPost (markAsPublished db p.id pubAt urn).1 p.id =
        some { p with
               status := Status.published,
               publishedAt := some pubAt,
               postUrn := some urn } ∧
      getScheduledPost (markAsFailed db p.id e).1 p.id =
        some { p with
               status := Status.failed,
               errorMessage := some e,
               retryCount := p.retryCount + 1 }) := by
  have hnp : p.status ≠ Status.pending := by
    rcases hterm with h | h <;> simp [h]
  have hnf : p.status ≠ Status.failed := by
    rcases hterm with h | h <;> simp [h]
  refine ⟨⟨?_, ?_, ?_⟩, ?_⟩
  · rw [cancelPost_fst]
    exact mem_map_ite_of_not_cond hm (by simp [hnp])
  · rw [resetForRetry_fst]
    exact mem_map_ite_of_not_cond hm (by simp [hnf])
  · rw [reschedulePost_fst]
    exact mem_map_ite_of_not_cond hm (by simp [hnp])
  · intro pubAt urn e hu
    exact ⟨markAsPublished_lookup hu hm pubAt urn,
           markAsFailed_lookup hu hm e⟩

/-- Witness for C1 (amended) at a concrete one-row cancelled store. -/
theorem s2p_C1_witness :
    demoCancelled ∈ (cancelPost [demoCancelled] 1).1 ∧
    getScheduledPost
        (markAsPublished [demoCancelled] demoCancelled.id 200 "u").1
        demoCancelled.id =
      some { demoCancelled with
             status := Status.published,
             publishedAt := some 200,
             postUrn := some "u" } := by
  have h := s2p_C1_amended [demoCancelled] 1 5 demoCancelled
    (by decide) (Or.inr (by decide))
  exact ⟨h.1.1, (h.2 200 "u" "e" (by decide)).1⟩

/-- C2: Retry ceiling — when a due pending record's publish attempt fails,
`markAsFailed` leaves `retryCount` at one more than the snapshot value; if
that is still below `MAX_RETRIES` (3) the record is reset to `pending`
(error message cleared) so a later tick reconsiders it; if the failure is
the `MAX_RETRIES`-th, the record ends with status `failed` and
`retryCount = MAX_RETRIES`, and over every subsequent sequence of daemon
ticks its row never changes again — in particular it never returns to
`pending` and no member of any later due set carries its id. -/
theorem s2p_C2 (db : DB) (now pubAt : Nat) (p : ScheduledPost) (e : String)
    (publish : ScheduledPost → PublishOutcome)
    (hu : UniqueIds db) (hp : p ∈ getDuePosts db now)
    (hf : publish p = PublishOutcome.fail e) :
    (p.retryCount + 1 < MAX_RETRIES →
      getScheduledPost (processOnePost publish pubAt db p) p.id =
        some { p with
               status := Status.pending,
               errorMessage := none,
               retryCount := p.retryCount + 1 }) ∧
    (p.retryCount + 1 = MAX_RETRIES →
      getScheduledPost (processOnePost publish pubAt db p) p.id =
        some { p with
               status := Status.failed,
               errorMessage := some e,
               retryCount := MAX_RETRIES } ∧
      ∀ ticks : List ((ScheduledPost → PublishOutcome) × Nat × Nat),
        getScheduledPost
            (runTicks (processOnePost publish pubAt db p) ticks) p.id =
          some { p with
                 status := Status.failed,
                 errorMessage := some e,
                 retryCount := MAX_RETRIES } ∧
        ∀ now2 : Nat, ∀ r ∈ getDuePosts
            (runTicks (processOnePost publish pubAt db p) ticks) now2,
          r.id ≠ p.id) := by
  have hpm : p ∈ db := (getDuePosts_mem.mp hp).1
  have hfail1 := markAsFailed_lookup hu hpm e
  constructor
  · intro hlt
    simp only [processOnePost, hf]
    rw [if_pos hlt, resetForRetry_fst,
      getScheduledPost_map_ite _ _ _ _ (by intro q; rfl), hfail1,
      Option.map_some', if_pos (by simp)]
  · intro heq
    have hge : ¬ (p.retryCount + 1 < MAX_RETRIES) := by omega
    have hlook1 : getScheduledPost (processOnePost publish pubAt db p)
        p.id = some { p with
                      status := Status.failed,
                      errorMessage := some e,
                      retryCount := MAX_RETRIES } := by
      simp only [processOnePost, hf]
      rw [if_neg hge]
      rw [heq] at hfail1
      exact hfail1
    have hu2 : UniqueIds (processOnePost publish pubAt db p) := by
      unfold UniqueIds
      rw [processOnePost_ids]
      exact hu
    refine ⟨hlook1, ?_⟩
    intro ticks
    have hstable := runTicks_lookup_stable (by simp) ticks
      (processOnePost publish pubAt db p) hu2 hlook1
    refine ⟨hstable.1, ?_⟩
    intro now2
    exact due_id_ne_of_not_pending hstable.2 hstable.1 (by simp)

/-- Witness for C2: the third consecutive failure of a concrete record
that has already failed twice leaves it terminally failed with
`retryCount = MAX_RETRIES`. -/
theorem s2p_C2_witness :
    getScheduledPost
        (processOnePost alwaysFail 0 [demoPendingR2] demoPendingR2)
        demoPendingR2.id =
      some { demoPendingR2 with
             status := Status.failed,
             errorMessage := some "network error",
             retryCount := MAX_RETRIES } :=
  ((s2p_C2 [demoPendingR2] 100 0 demoPendingR2 "network error" alwaysFail
    (by decide) (by decide) (by decide)).2 (by decide)).1

/-- C5: Future-only scheduling — if the requested `scheduledTime` is at or
before `now` at call time, `linkedin_schedule_post` fails with a
validation error and no record is created (the error is produced before
any store access); if it is strictly after `now` (with the commentary
within the Zod bounds and the generated uuid fresh), the call succeeds,
appending exactly one new record with status `pending`, the fresh id and
the given `scheduledTime`, and reporting those in the response. -/
theorem s2p_C5 (db : DB) (now newId createdAt : Nat)
    (inp : SchedulePostInput) :
    (inp.scheduledTime ≤ now →
      ∃ msg, linkedin_schedule_post db now newId createdAt inp =
        Except.error msg) ∧
    (now < inp.scheduledTime → 1 ≤ inp.commentary.length →
      inp.commentary.length ≤ 3000 → (∀ q ∈ db, q.id ≠ newId) →
      linkedin_schedule_post db now newId createdAt inp =
        Except.ok (db ++
          [{ id := newId, commentary := inp.commentary, url := inp.url,
             visibility := inp.visibility.getD "PUBLIC",
             scheduledTime := inp.scheduledTime, status := Status.pending,
             createdAt := createdAt, publishedAt := none, postUrn := none,
             errorMessage := none, retryCount := 0 }],
          { postId := newId, scheduledTime := inp.scheduledTime,
            status := Status.pending, message := "Post scheduled" })) := by
  constructor
  · intro hle
    have hnlt : ¬ (now < inp.scheduledTime) := by omega
    by_cases h1 : inp.commentary.length < 1
    · refine ⟨"Commentary cannot be empty", ?_⟩
      simp only [linkedin_schedule_post, parseSchedulePostInput, if_pos h1]
    · by_cases h2 : 3000 < inp.commentary.length
      · refine ⟨"Commentary must be 3000 characters or less", ?_⟩
        simp only [linkedin_schedule_post, parseSchedulePostInput,
          if_neg h1, if_pos h2]
      · refine ⟨"scheduledTime must be in the future", ?_⟩
        simp only [linkedin_schedule_post, parseSchedulePostInput,
          if_neg h1, if_neg h2, if_neg hnlt]
  · intro hlt hmin hmax hfresh
    have h1 : ¬ (inp.commentary.length < 1) := by omega
    have h2 : ¬ (3000 < inp.commentary.length) := by omega
    have hparse : parseSchedulePostInput now inp = Except.ok
        { commentary := inp.commentary,
          scheduledTime := inp.scheduledTime, url := inp.url,
          visibility := inp.visibility.getD "PUBLIC" } := by
      simp only [parseSchedulePostInput, if_neg h1, if_neg h2, if_pos hlt]
    have hlook : getScheduledPost (db ++
        [{ id := newId, commentary := inp.commentary, url := inp.url,
           visibility := inp.visibility.getD "PUBLIC",
           scheduledTime := inp.scheduledTime, status := Status.pending,
           createdAt := createdAt, publishedAt := none, postUrn := none,
           errorMessage := none, retryCount := 0 }]) newId =
        some { id := newId, commentary := inp.commentary, url := inp.url,
               visibility := inp.visibility.getD "PUBLIC",
               scheduledTime := inp.scheduledTime,
               status := Status.pending, createdAt := createdAt,
               publishedAt := none, postUrn := none, errorMessage := none,
               retryCount := 0 } :=
      getScheduledPost_append_fresh rfl (fun q hq => hfresh q hq)
    simp only [linkedin_schedule_post, hparse, addScheduledPost]
    rw [hlook]

/-- Witness for C5: both branches at a concrete call — scheduling for time
5 at now 10 is rejected, scheduling for time 20 at now 10 creates the
pending record. -/
theorem s2p_C5_witness :
    (∃ msg, linkedin_schedule_post [] 10 7 0
      { commentary := "hi", scheduledTime := 5, url := none,
        visibility := none } = Except.error msg) ∧
    linkedin_schedule_post [] 10 7 0
      { commentary := "hi", scheduledTime := 20, url := none,
        visibility := none } =
      Except.ok
        ([{ id := 7, commentary := "hi", url := none,
            visibility := "PUBLIC", scheduledTime := 20,
            status := Status.pending, createdAt := 0, publishedAt := none,
            postUrn := none, errorMessage := none, retryCount := 0 }],
         { postId := 7, scheduledTime := 20, status := Status.pending,
           message := "Post scheduled" }) := by
  constructor
  · exact (s2p_C5 [] 10 7 0
      { commentary := "hi", scheduledTime := 5, url := none,
        visibility := none }).1 (by decide)
  · exact (s2p_C5 [] 10 7 0
      { commentary := "hi", scheduledTime := 20, url := none,
        visibility := none }).2 (by decide) (by decide) (by decide)
      (fun q hq => by cases hq)

/-- C6 counterexample: a failing store read is not caught inside the tick —
`processDuePostsE` returns the storage error instead of absorbing it, and
the startup check of `startScheduler` (a `.then` with no `.catch`) passes
it through unhandled, contradicting the claim that a tick that cannot
read the store logs the error and lets the loop continue normally. -/
theorem s2p_C6_counterexample :
    processDuePostsE failingStore (fun _ => PublishOutcome.ok "u") =
      Except.error "database read failed" ∧
    startupInitialCheck failingStore (fun _ => PublishOutcome.ok "u") =
      Except.error "database read failed" :=
  ⟨rfl, rfl⟩

/-- C6 (amended): the daemon absorbs publish-adapter failures but not
storage failures — when the due-posts read fails, `processDuePostsE`
surfaces exactly that error and the startup check (which attaches no
handler) passes it through; when every store operation succeeds, the tick
always completes with counters, whatever the adapter outcomes. -/
theorem s2p_C6_amended (store : SchedulerStore)
    (publish : ScheduledPost → PublishOutcome) :
    (∀ e, store.getDue = Except.error e →
      processDuePostsE store publish = Except.error e ∧
      startupInitialCheck store publish = Except.error e) ∧
    (∀ posts, store.getDue = Except.ok posts →
      (∀ i u, store.markPub i u = Except.ok ()) →
      (∀ i s, store.markFail i s = Except.ok ()) →
      (∀ i, store.resetRetry i = Except.ok ()) →
      ∃ counts, processDuePostsE store publish = Except.ok counts) := by
  constructor
  · intro e he
    have h1 : processDuePostsE store publish = Except.error e := by
      simp only [processDuePostsE, he]
    refine ⟨h1, ?_⟩
    simp only [startupInitialCheck, h1]
    rfl
  · intro posts hok hpub hfail hreset
    have hloop : ∀ (l : List ScheduledPost) (counts : Nat × Nat),
        ∃ r, processLoop store publish counts l = Except.ok r := by
      intro l
      induction l with
      | nil => intro counts; exact ⟨counts, rfl⟩
      | cons a tl ih =>
          intro counts
          have hbody : ∃ c2,
              processLoopBody store publish counts a = Except.ok c2 := by
            cases hpa : publish a with
            | ok urn =>
                refine ⟨(counts.1 + 1, counts.2), ?_⟩
                simp only [processLoopBody, hpa, hpub a.id urn]
            | fail err =>
                by_cases hr : a.retryCount + 1 < MAX_RETRIES
                · refine ⟨(counts.1, counts.2 + 1), ?_⟩
                  simp only [processLoopBody, hpa, hfail a.id err,
                    if_pos hr, hreset a.id]
                · refine ⟨(counts.1, counts.2 + 1), ?_⟩
                  simp only [processLoopBody, hpa, hfail a.id err,
                    if_neg hr]
          obtain ⟨c2, hc2⟩ := hbody
          obtain ⟨r, hrr⟩ := ih c2
          refine ⟨r, ?_⟩
          simp only [processLoop, hc2]
          exact hrr
    obtain ⟨r, hr⟩ := hloop posts (0, 0)
    refine ⟨r, ?_⟩
    simp only [processDuePostsE, hok]
    exact hr

/-- Witness for C6 (amended): a concrete failing store surfaces its read
error; a concrete all-ok store completes the tick even though the adapter
always fails. -/
theorem s2p_C6_witness :
    processDuePostsE failingStore alwaysFail =
      Except.error "database read failed" ∧
    ∃ counts, processDuePostsE okStore alwaysFail = Except.ok counts := by
  constructor
  · exact ((s2p_C6_amended failingStore alwaysFail).1
      "database read failed" rfl).1
  · exact (s2p_C6_amended okStore alwaysFail).2 [demoPendingR2] rfl
      (fun i u => rfl) (fun i s => rfl) (fun i => rfl)

/-- C7: scheduledTime immutability — the mutating operations other than
`reschedulePost` preserve every row's `scheduledTime` (their `SET` lists
never name `scheduled_time`), `addScheduledPost` keeps every existing row
and `deleteScheduledPost` only removes rows; `reschedulePost` succeeds
(returns non-null) iff a pending row with the id exists, on success it
returns that row with the new `scheduledTime`, and called on an existing
record that is not pending it returns `null` with the store exactly
unchanged. -/
theorem s2p_C7 (db : DB) (i t pubAt : Nat) (u e : String)
    (hu : UniqueIds db) :
    ((markAsPublished db i pubAt u).1.map (fun p => p.scheduledTime) =
        db.map (fun p => p.scheduledTime) ∧
      (markAsFailed db i e).1.map (fun p => p.scheduledTime) =
        db.map (fun p => p.scheduledTime) ∧
      (cancelPost db i).1.map (fun p => p.scheduledTime) =
        db.map (fun p => p.scheduledTime) ∧
      (resetForRetry db i).1.map (fun p => p.scheduledTime) =
        db.map (fun p => p.scheduledTime)) ∧
    (∀ (nid ct st : Nat) (c : String) (url : Option String) (v : String),
      ∀ q ∈ db, q ∈ (addScheduledPost db nid ct c st url v).1) ∧
    (∀ q ∈ (deleteScheduledPost db i).1, q ∈ db) ∧
    ((∃ q, (reschedulePost db i t).2 = some q) ↔
      ∃ p ∈ db, p.id = i ∧ p.status = Status.pending) ∧
    (∀ p ∈ db, p.id = i → p.status = Status.pending →
      (reschedulePost db i t).2 = some { p with scheduledTime := t }) ∧
    (∀ p ∈ db, p.id = i → p.status ≠ Status.pending →
      reschedulePost db i t = (db, none)) := by
  refine ⟨⟨?_, ?_, ?_, ?_⟩, ?_, ?_, ⟨?_, ?_⟩, ?_, ?_⟩
  · rw [markAsPublished_fst]
    exact map_ite_proj (fun p => p.scheduledTime) (by intro q; rfl)
  · rw [markAsFailed_fst]
    exact map_ite_proj (fun p => p.scheduledTime) (by intro q; rfl)
  · rw [cancelPost_fst]
    exact map_ite_proj (fun p => p.scheduledTime) (by intro q; rfl)
  · rw [resetForRetry_fst]
    exact map_ite_proj (fun p => p.scheduledTime) (by intro q; rfl)
  · intro nid ct st c url v q hq
    exact List.mem_append_left _ hq
  · intro q hq
    exact (List.mem_filter.mp hq).1
  · rintro ⟨q, hq⟩
    by_contra hne
    push_neg at hne
    have hfalse : ∀ r ∈ db,
        (r.id == i && r.status == Status.pending) = false := by
      intro r hr
      by_cases hri : r.id = i
      · have hrs := hne r hr hri
        simp [hri, hrs]
      · simp [hri]
    rw [reschedulePost_of_no_match hfalse] at hq
    simp at hq
  · rintro ⟨p, hp, hid, hs⟩
    exact ⟨_, reschedulePost_snd_some hu hp hid hs⟩
  · intro p hp hid hs
    exact reschedulePost_snd_some hu hp hid hs
  · intro p hp hid hs
    have hfalse : ∀ r ∈ db,
        (r.id == i && r.status == Status.pending) = false := by
      intro r hr
      by_cases hri : r.id = i
      · have hrp : r = p := eq_of_mem_of_same_id hu hr hp (by rw [hri, hid])
        subst hrp
        simp [hri, hs]
      · simp [hri]
    exact reschedulePost_of_no_match hfalse

/-- Witness for C7: rescheduling a cancelled record fails and leaves the
store unchanged; rescheduling a pending record returns the row with the
new time. -/
theorem s2p_C7_witness :
    reschedulePost [demoCancelled] 1 500 = ([demoCancelled], none) ∧
    (reschedulePost [demoPending] 2 500).2 =
      some { demoPending with scheduledTime := 500 } := by
  constructor
  · exact (s2p_C7 [demoCancelled] 1 500 0 "u" "e"
      (by decide)).2.2.2.2.2 demoCancelled (by decide) (by decide)
      (by decide)
  · exact (s2p_C7 [demoPending] 2 500 0 "u" "e"
      (by decide)).2.2.2.2.1 demoPending (by decide) (by decide)
      (by decide)

/-- C8: resetForRetry preserves the attempt count — on a `failed` record
it returns the row with status `pending` and `errorMessage` cleared while
every other field (in particular `retryCount`, and also `id`,
`commentary`, `url`, `visibility`, `scheduledTime`, `createdAt`,
`publishedAt`, `postUrn`) is unchanged; rows with other ids are untouched;
and no store update ever decreases any row's `retryCount` (row-by-row
`≤`), so no core operation resets it to 0 — which is what lets the
daemon's ceiling bound the total number of publish attempts. -/
theorem s2p_C8 (db : DB) (i t pubAt : Nat) (u e : String) :
    (UniqueIds db → ∀ p ∈ db, p.id = i → p.status = Status.failed →
      (resetForRetry db i).2 =
        some { p with status := Status.pending, errorMessage := none } ∧
      ∀ q ∈ db, q.id ≠ i → q ∈ (resetForRetry db i).1) ∧
    (List.Forall₂ (fun a b : ScheduledPost => a.retryCount ≤ b.retryCount)
        db (markAsPublished db i pubAt u).1 ∧
      List.Forall₂ (fun a b : ScheduledPost => a.retryCount ≤ b.retryCount)
        db (markAsFailed db i e).1 ∧
      List.Forall₂ (fun a b : ScheduledPost => a.retryCount ≤ b.retryCount)
        db (cancelPost db i).1 ∧
      List.Forall₂ (fun a b : ScheduledPost => a.retryCount ≤ b.retryCount)
        db (resetForRetry db i).1 ∧
      List.Forall₂ (fun a b : ScheduledPost => a.retryCount ≤ b.retryCount)
        db (reschedulePost db i t).1) := by
  constructor
  · intro hu p hp hid hs
    refine ⟨resetForRetry_snd_some hu hp hid hs, ?_⟩
    intro q hq hqi
    rw [resetForRetry_fst]
    exact mem_map_ite_of_not_cond hq (by simp [hqi])
  · refine ⟨?_, ?_, ?_, ?_, ?_⟩
    · rw [markAsPublished_fst]
      exact forall₂_retry_le (fun q => by
        by_cases h : (q.id == i) = true
        · rw [if_pos h]
        · rw [if_neg h])
    · rw [markAsFailed_fst]
      exact forall₂_retry_le (fun q => by
        by_cases h : (q.id == i) = true
        · rw [if_pos h]
          exact Nat.le_succ _
        · rw [if_neg h])
    · rw [cancelPost_fst]
      exact forall₂_retry_le (fun q => by
        by_cases h : (q.id == i && q.status == Status.pending) = true
        · rw [if_pos h]
        · rw [if_neg h])
    · rw [resetForRetry_fst]
      exact forall₂_retry_le (fun q => by
        by_cases h : (q.id == i && q.status == Status.failed) = true
        · rw [if_pos h]
        · rw [if_neg h])
    · rw [reschedulePost_fst]
      exact forall₂_retry_le (fun q => by
        by_cases h : (q.id == i && q.status == Status.pending) = true
        · rw [if_pos h]
        · rw [if_neg h])

/-- Witness for C8: resetting a concrete failed record with
`retryCount = 1` keeps the count at 1 and only changes status and error
message. -/
theorem s2p_C8_witness :
    (resetForRetry [demoFailed] 3).2 =
      some { demoFailed with
             status := Status.pending, errorMessage := none } :=
  ((s2p_C8 [demoFailed] 3 0 0 "u" "e").1 (by decide) demoFailed
    (by decide) (by decide) (by decide)).1

/-- C9: Cancel failure causes are conflated — `cancelPost` returns the
same `null` both when no row carries the id and when the row exists but is
not `pending`, and in both cases `linkedin_cancel_scheduled_post` throws
the identical combined message (`cancelNotFoundMessage`, "Post not found
or not in pending status"), so the caller cannot tell the causes apart. -/
theorem s2p_C9 (db : DB) (i : Nat) :
    ((∀ q ∈ db, q.id ≠ i) →
      (cancelPost db i).2 = none ∧
      linkedin_cancel_scheduled_post db i =
        Except.error (cancelNotFoundMessage i)) ∧
    (UniqueIds db → ∀ p ∈ db, p.id = i → p.status ≠ Status.pending →
      (cancelPost db i).2 = none ∧
      linkedin_cancel_scheduled_post db i =
        Except.error (cancelNotFoundMessage i)) := by
  constructor
  · intro h
    have hfalse : ∀ r ∈ db,
        (r.id == i && r.status == Status.pending) = false := by
      intro r hr
      simp [h r hr]
    have hnone : (cancelPost db i).2 = none := by
      rw [cancelPost_of_no_match hfalse]
    refine ⟨hnone, ?_⟩
    simp only [linkedin_cancel_scheduled_post, hnone]
  · intro hu p hp hid hs
    have hfalse : ∀ r ∈ db,
        (r.id == i && r.status == Status.pending) = false := by
      intro r hr
      by_cases hri : r.id = i
      · have hrp : r = p := eq_of_mem_of_same_id hu hr hp (by rw [hri, hid])
        subst hrp
        simp [hri, hs]
      · simp [hri]
    have hnone : (cancelPost db i).2 = none := by
      rw [cancelPost_of_no_match hfalse]
    refine ⟨hnone, ?_⟩
    simp only [linkedin_cancel_scheduled_post, hnone]

/-- Witness for C9: the tool throws the same combined error for a missing
id (empty store) and for an existing cancelled record. -/
theorem s2p_C9_witness :
    linkedin_cancel_scheduled_post ([] : DB) 7 =
      Except.error (cancelNotFoundMessage 7) ∧
    linkedin_cancel_scheduled_post [demoCancelled] 1 =
      Except.error (cancelNotFoundMessage 1) := by
  constructor
  · exact ((s2p_C9 [] 7).1 (fun q hq => by cases hq)).2
  · exact ((s2p_C9 [demoCancelled] 1).2 (by decide) demoCancelled
      (by decide) (by decide) (by decide)).2

/-- C10: List limit bounds — an omitted `limit` defaults to 50; a supplied
limit that is not an integer, is below 1, or is above 100 is rejected with
a validation error that is the same for every store state (so the
rejection happens before the store is queried); and every successful
result reports `count` equal to the length of the returned posts array. -/
theorem s2p_C10 (db : DB) (status : Option Status) :
    (parseListLimit none = Except.ok 50 ∧
      linkedin_list_scheduled_posts db
          { status := status, limit := none } =
        Except.ok { posts := getScheduledPosts db status 50,
                    count := (getScheduledPosts db status 50).length,
                    message := "Found scheduled posts" }) ∧
    (∀ q : ℚ, q.den ≠ 1 ∨ q < 1 ∨ 100 < q →
      ∃ msg, ∀ db2 : DB,
        linkedin_list_scheduled_posts db2
            { status := status, limit := some q } =
          Except.error msg) ∧
    (∀ inp out, linkedin_list_scheduled_posts db inp = Except.ok out →
      out.count = out.posts.length) := by
  refine ⟨⟨rfl, rfl⟩, ?_, ?_⟩
  · intro q hq
    by_cases h1 : q.den ≠ 1
    · refine ⟨"Limit must be an integer", fun db2 => ?_⟩
      simp only [linkedin_list_scheduled_posts, parseListLimit, if_pos h1]
    · push_neg at h1
      by_cases h2 : q < 1
      · refine ⟨"Limit must be at least 1", fun db2 => ?_⟩
        simp only [linkedin_list_scheduled_posts, parseListLimit,
          if_neg (not_not_intro h1), if_pos h2]
      · by_cases h3 : 100 < q
        · refine ⟨"Limit cannot exceed 100", fun db2 => ?_⟩
          simp only [linkedin_list_scheduled_posts, parseListLimit,
            if_neg (not_not_intro h1), if_neg h2, if_pos h3]
        · rcases hq with h | h | h
          · exact absurd h1 h
          · exact absurd h h2
          · exact absurd h h3
  · intro inp out hout
    cases hp : parseListLimit inp.limit with
    | error m =>
        simp only [linkedin_list_scheduled_posts, hp] at hout
        cases hout
    | ok limit =>
        simp only [linkedin_list_scheduled_posts, hp] at hout
        injection hout with h
        rw [← h]

/-- Witness for C10: a zero limit is rejected with the minimum-bound
error regardless of the store. -/
theorem s2p_C10_witness :
    ∃ msg, ∀ db2 : DB,
      linkedin_list_scheduled_posts db2
          { status := none, limit := some (0 : ℚ) } =
        Except.error msg :=
  (s2p_C10 [] none).2.1 (0 : ℚ) (Or.inr (Or.inl (by decide)))

end McpLinkedin
